import Mathlib

/-!
Shallow embedding of the Y2K-statsbook historical ledger and head-to-head
(H2H) record logic: the batch H2H build (`tools/init_h2h_records.py`), the
incremental weekly update (`tools/generate_preview.py`), the playoff
classifier and ledger builder (`tools/build_history.py`), the identity
merge (`dashboards/dashboard_h2h.py`) and the final-standings rank
assignment (`dashboard_final_standings.py`).  Python dicts are modelled as
insertion-ordered association lists, raised exceptions as `none`/`Option`,
scores as `Rat`.
-/

/-- Truthiness of Python's optional winner string: `None` and `""` are falsy. -/
def truthyStr : Option String → Bool
  | none => false
  | some s => s ≠ ""

/-- One entry of a `playoff_history` / `regular_history` list, as built by
`calculate_h2h_for_pair` and `update_h2h_records` (keys `winner`, `type`,
`season`, `week`). -/
structure GameInfo where
  winner : String
  gtype : String
  season : Int
  week : Int
  deriving DecidableEq, Repr

/-- One row of `historical_data.json` as written by
`build_historical_data_from_cache` (tools/build_history.py, line 122). -/
structure Game where
  season : Int
  week : Int
  game_type : String
  team1_manager_name : String
  team2_manager_name : String
  team1_score : Rat
  team2_score : Rat
  winner_manager_name : Option String
  deriving DecidableEq, Repr

/-- The record `calculate_h2h_for_pair` returns (tools/init_h2h_records.py,
lines 81-97); also the value type of the `h2h_records.json` store. -/
structure H2HRecord where
  manager1_name : String
  manager2_name : String
  reg_wins_1 : Nat
  reg_wins_2 : Nat
  playoff_wins_1 : Nat
  playoff_wins_2 : Nat
  playoff_history : List GameInfo
  regular_history : List GameInfo
  streak_holder : Option String
  streak_len : Nat
  longest_streak_holder : Option String
  longest_streak_len : Nat
  longest_streak_start_game : Option (Int × Int)
  longest_streak_end_game : Option (Int × Int)
  last_game : Int × Int
  deriving DecidableEq, Repr

/-- Stable insertion sort modelling Python's stable `list.sort` / `sorted`.
`lt y x = true` means the already-placed element `y` stays strictly before
the incoming `x`; on equal keys the incoming element (which came earlier in
the original list, as `sortStable` inserts back to front) is kept first. -/
def insertStable (lt : α → α → Bool) (x : α) : List α → List α
  | [] => [x]
  | y :: ys => if lt y x then y :: insertStable lt x ys else x :: y :: ys

/-- Stable sort by the strict comparison `lt` (see `insertStable`). -/
def sortStable (lt : α → α → Bool) : List α → List α
  | [] => []
  | x :: xs => insertStable lt x (sortStable lt xs)

/-- Strict `(season, week)` order, the key of the chronological sort in
`calculate_h2h_for_pair` (line 12). -/
def chronLT (a b : Game) : Bool :=
  a.season < b.season || (a.season = b.season && a.week < b.week)

/-- `{g.team1, g.team2} == {name1, name2}` as Python set equality
(tools/init_h2h_records.py, line 10). -/
def pairMatch (name1 name2 : String) (g : Game) : Bool :=
  (g.team1_manager_name = name1 && g.team2_manager_name = name2) ||
    (g.team1_manager_name = name2 && g.team2_manager_name = name1)

/-- The playoff game types (`['QF', 'SF', '1st', '3rd']`). -/
def playoffTypes : List String := ["QF", "SF", "1st", "3rd"]

/-- Accumulated win counters and history lists of the batch H2H pass
(tools/init_h2h_records.py, lines 17-43). -/
@[ext]
structure TallyState where
  reg1 : Nat
  reg2 : Nat
  po1 : Nat
  po2 : Nat
  playoff_history : List GameInfo
  regular_history : List GameInfo
  deriving DecidableEq, Repr

/-- The win/history loop of `calculate_h2h_for_pair` (lines 23-43): skip
consolation games, then credit the winner side, splitting playoff from
regular games.  Processing the head first and prepending its entry keeps
the history lists in iteration order. -/
def tallyGames (name1 name2 : String) : List Game → TallyState
  | [] => ⟨0, 0, 0, 0, [], []⟩
  | g :: rest =>
    let t := tallyGames name1 name2 rest
    if g.game_type = "consolation" then t
    else if g.winner_manager_name = some name1 then
      let info : GameInfo := ⟨name1, g.game_type, g.season, g.week⟩
      if playoffTypes.contains g.game_type then
        { t with po1 := t.po1 + 1, playoff_history := info :: t.playoff_history }
      else
        { t with reg1 := t.reg1 + 1, regular_history := info :: t.regular_history }
    else if g.winner_manager_name = some name2 then
      let info : GameInfo := ⟨name2, g.game_type, g.season, g.week⟩
      if playoffTypes.contains g.game_type then
        { t with po2 := t.po2 + 1, playoff_history := info :: t.playoff_history }
      else
        { t with reg2 := t.reg2 + 1, regular_history := info :: t.regular_history }
    else t

/-- State of the longest-streak scan of `calculate_h2h_for_pair`
(lines 46-69).  Note the loop runs over `relevant_games`, which still
includes consolation games. -/
structure StreakState where
  cur_holder : Option String
  cur_len : Nat
  cur_start : Option (Int × Int)
  best_holder : Option String
  best_len : Nat
  best_start : Option (Int × Int)
  best_end : Option (Int × Int)
  deriving DecidableEq, Repr

/-- One iteration of the longest-streak loop (lines 51-69): a falsy winner
resets the current streak; a repeat winner extends it; a new winner starts
a fresh streak; a strictly larger current length replaces the best. -/
def streakStep (st : StreakState) (g : Game) : StreakState :=
  if truthyStr g.winner_manager_name = false then
    { st with cur_holder := none, cur_len := 0 }
  else
    let w := g.winner_manager_name
    let h := if w = st.cur_holder then st.cur_holder else w
    let len := if w = st.cur_holder then st.cur_len + 1 else 1
    let start := if w = st.cur_holder then st.cur_start else some (g.season, g.week)
    let st' := { st with cur_holder := h, cur_len := len, cur_start := start }
    if st.best_len < len then
      { st' with best_holder := h, best_len := len, best_start := start,
                 best_end := some (g.season, g.week) }
    else st'

/-- The whole longest-streak scan. -/
def streakScan (games : List Game) : StreakState :=
  games.foldl streakStep ⟨none, 0, none, none, 0, none, none⟩

/-- The current-streak recomputation of `calculate_h2h_for_pair`
(lines 71-79): from the last game's winner, count backwards while that
winner keeps winning.  Again runs over the unfiltered relevant games. -/
def tailStreak (games : List Game) : Option String × Nat :=
  match games.getLast? with
  | none => (none, 0)
  | some lastg =>
    if truthyStr lastg.winner_manager_name then
      match lastg.winner_manager_name with
      | none => (none, 0)
      | some w =>
        (some w, (games.reverse.takeWhile
          (fun g => g.winner_manager_name = some w)).length)
    else (none, 0)

/-- `calculate_h2h_for_pair` (tools/init_h2h_records.py, lines 7-97): the
batch rebuild of one pair's head-to-head record from the full ledger. -/
def calculate_h2h_for_pair (name1 name2 : String) (all_matchups : List Game) :
    Option H2HRecord :=
  let relevant := sortStable chronLT (all_matchups.filter (pairMatch name1 name2))
  match relevant.getLast? with
  | none => none
  | some lastg =>
    let t := tallyGames name1 name2 relevant
    let ls := streakScan relevant
    let cs := tailStreak relevant
    some
      { manager1_name := name1
        manager2_name := name2
        reg_wins_1 := t.reg1
        reg_wins_2 := t.reg2
        playoff_wins_1 := t.po1
        playoff_wins_2 := t.po2
        playoff_history := t.playoff_history
        regular_history := t.regular_history
        streak_holder := cs.1
        streak_len := cs.2
        longest_streak_holder := ls.best_holder
        longest_streak_len := ls.best_len
        longest_streak_start_game := ls.best_start
        longest_streak_end_game := ls.best_end
        last_game := (lastg.season, lastg.week) }

/-- The `h2h_records.json` store: a Python dict keyed by the joined pair
name, modelled as an insertion-ordered association list. -/
abbrev H2HStore := List (String × H2HRecord)

/-- Dict lookup. -/
def storeFind (store : H2HStore) (k : String) : Option H2HRecord :=
  (store.find? (fun p => p.1 = k)).map (fun p => p.2)

/-- In-place overwrite of an existing dict entry (never inserts). -/
def storeSet (store : H2HStore) (k : String) (r : H2HRecord) : H2HStore :=
  store.map (fun p => if p.1 = k then (k, r) else p)

/-- Lexicographic strict order on character lists, by code point: Python's
`<` on strings. -/
def charListLT : List Char → List Char → Bool
  | [], [] => false
  | [], _ :: _ => true
  | _ :: _, [] => false
  | a :: as, b :: bs => a < b || (a = b && charListLT as bs)

/-- Python's `a < b` on strings (lexicographic by code point; the same
relation as Lean's `String.lt`, written over the character lists so that
it computes). -/
def strLT (a b : String) : Bool :=
  charListLT a.data b.data

/-- `"-".join(sorted([a, b]))`: Python sorts the two names, so the
lexicographically smaller name comes first in the key. -/
def sortedKey (a b : String) : String :=
  if strLT b a then b ++ "-" ++ a else a ++ "-" ++ b

/-- One element of `week_results` in `update_h2h_records`
(tools/generate_preview.py): the fields of the yfpy matchup object that
the function reads.  `manager1`/`manager2` are
`matchup.teams[i].managers[0].nickname`; `winner_is_team1` models
`matchup.winner_team_key == matchup.teams[0].team_key`. -/
structure Matchup where
  week : Int
  is_playoffs : Bool
  is_consolation : Bool
  is_third_place : Bool
  is_tied : Bool
  manager1 : String
  manager2 : String
  winner_is_team1 : Bool
  deriving DecidableEq, Repr

/-- The game-type computation of `update_h2h_records`
(tools/generate_preview.py, lines 40-52). -/
def previewGameType (m : Matchup) (playoff_start_week num_playoff_teams : Int) :
    String :=
  if m.is_playoffs then
    if m.is_consolation then "consolation"
    else if m.is_third_place then "3rd"
    else
      let week_offset := m.week - playoff_start_week
      if 6 ≤ num_playoff_teams then
        if week_offset = 0 then "QF"
        else if week_offset = 1 then "SF"
        else "1st"
      else
        if week_offset = 0 then "SF" else "1st"
  else "regular"

/-- Lines 72-97 of `update_h2h_records` (tools/generate_preview.py): how
one non-consolation, non-tied game with winner `w` mutates the stored
record — credit the winner side (playoff or regular), append the history
entry, bump or restart the current streak, stamp `last_game`. -/
def recordWithGame (season : Int) (gt : String) (week : Int) (w : String)
    (record : H2HRecord) : H2HRecord :=
  let info : GameInfo := ⟨w, gt, season, week⟩
  let record :=
    if playoffTypes.contains gt then
      if w = record.manager1_name then
        { record with playoff_wins_1 := record.playoff_wins_1 + 1,
                      playoff_history := record.playoff_history ++ [info] }
      else
        { record with playoff_wins_2 := record.playoff_wins_2 + 1,
                      playoff_history := record.playoff_history ++ [info] }
    else
      if w = record.manager1_name then
        { record with reg_wins_1 := record.reg_wins_1 + 1,
                      regular_history := record.regular_history ++ [info] }
      else
        { record with reg_wins_2 := record.reg_wins_2 + 1,
                      regular_history := record.regular_history ++ [info] }
  let record :=
    if record.streak_holder = some w then
      { record with streak_len := record.streak_len + 1 }
    else
      { record with streak_holder := some w, streak_len := 1 }
  { record with last_game := (season, week) }

/-- The body of the per-matchup loop of `update_h2h_records`
(tools/generate_preview.py, lines 28-97): skip hidden managers, skip pairs
without a prior record, skip consolation games and ties, then apply
`recordWithGame` to the stored record. -/
def update_h2h_one (season playoff_start_week num_playoff_teams : Int)
    (store : H2HStore) (m : Matchup) : H2HStore :=
  if m.manager1 = "--hidden--" || m.manager2 = "--hidden--" then store
  else
    match storeFind store (sortedKey m.manager1 m.manager2) with
    | none => store
    | some record =>
      let gt := previewGameType m playoff_start_week num_playoff_teams
      if gt = "consolation" then store
      else
        let winner_name : Option String :=
          if m.is_tied then none
          else some (if m.winner_is_team1 then m.manager1 else m.manager2)
        if truthyStr winner_name = false then store
        else
          match winner_name with
          | none => store
          | some w =>
            storeSet store (sortedKey m.manager1 m.manager2)
              (recordWithGame season gt m.week w record)

/-- `update_h2h_records` (tools/generate_preview.py, lines 19-99): the
incremental weekly H2H update.  An empty `week_results` raises
(`week_results[0]` on line 23), modelled as `none`. -/
def update_h2h_records (week_results : List Matchup) (h2h_records : H2HStore)
    (season playoff_start_week num_playoff_teams : Int) : Option H2HStore :=
  match week_results with
  | [] => none
  | _ =>
    some (week_results.foldl
      (update_h2h_one season playoff_start_week num_playoff_teams) h2h_records)

/-- `itertools.combinations(names, 2)` on an enumeration of the manager
set, in enumeration order. -/
def combinations2 : List String → List (String × String)
  | [] => []
  | x :: xs => xs.map (fun y => (x, y)) ++ combinations2 xs

/-- `initialize_h2h_records` (tools/init_h2h_records.py, lines 99-138),
its file I/O stripped: builds the full store from the ledger.
`manager_names` is the enumeration of the Python set of manager nicknames;
that set's iteration order is unspecified, so it is a parameter here. -/
def initialize_h2h_records (manager_names : List String)
    (historical_data : List Game) : H2HStore :=
  (combinations2 manager_names).foldl
    (fun store p =>
      match calculate_h2h_for_pair p.1 p.2 historical_data with
      | none => store
      | some r => store ++ [(sortedKey p.1 p.2, r)])
    []

/-- One team side of a raw cached matchup (tools/build_history.py):
the manager nicknames in their listed order, and the point total. -/
structure RawTeam where
  managers : List String
  points : Rat
  deriving DecidableEq, Repr

/-- One raw cached matchup, with the fields `build_historical_data_from_cache`
reads. -/
structure RawMatchup where
  team1 : RawTeam
  team2 : RawTeam
  is_tied : Bool
  is_playoffs : Bool
  is_consolation : Bool
  deriving DecidableEq, Repr

/-- `get_primary_manager` (tools/build_history.py, lines 23-34).  A team
with a single manager keeps it; with co-managers, the first manager other
than the operator wins, falling back to the first listed manager.  A team
with zero managers hits `team.managers[0]` on an empty list — an uncaught
IndexError, modelled as `none`. -/
def get_primary_manager (managers : List String) (operator_nickname : String) :
    Option String :=
  match managers with
  | [m] => some m
  | _ =>
    match managers.filter (fun m => m ≠ operator_nickname) with
    | other :: _ => some other
    | [] => managers.head?

/-- The winner/loser computation of the ledger builder
(tools/build_history.py, lines 89-95): both are `None` on a tie; otherwise
the side with the higher raw score wins. -/
def computeWinner (is_tied : Bool) (points1 points2 : Rat) (m1 m2 : String) :
    Option String × Option String :=
  if is_tied then (none, none)
  else
    let winner_by_score := if points2 < points1 then m1 else m2
    if winner_by_score = m1 then (some m1, some m2) else (some m2, some m1)

/-- The bracket bookkeeping lists of PASS 2 (tools/build_history.py,
line 77).  Python appends `winner`/`loser`, which can be `None` for a tie,
so the lists hold optional names. -/
structure BracketState where
  qf_winners : List (Option String)
  sf_winners : List (Option String)
  sf_losers : List (Option String)
  deriving DecidableEq, Repr

/-- The game-type assignment of PASS 2 (tools/build_history.py,
lines 97-120), together with its updates to the bracket lists.  The source
consolation flag wins outright; then the playoff week offset and the
eligible sets decide; everything else stays `regular`. -/
def bhGameType (playoff_start_week num_playoff_teams : Int)
    (top_seeds_with_byes : List String) (st : BracketState) (week : Int)
    (m1 m2 : String) (winner loser : Option String)
    (is_playoffs is_consolation : Bool) : String × BracketState :=
  if is_consolation then ("consolation", st)
  else if is_playoffs then
    let week_offset := week - playoff_start_week
    if 6 ≤ num_playoff_teams then
      if week_offset = 0 then
        ("QF", { st with qf_winners := st.qf_winners ++ [winner] })
      else if week_offset = 1 then
        let possible := st.qf_winners ++ top_seeds_with_byes.map some
        if possible.contains (some m1) && possible.contains (some m2) then
          ("SF", { st with sf_winners := st.sf_winners ++ [winner],
                           sf_losers := st.sf_losers ++ [loser] })
        else ("consolation", st)
      else if week_offset = 2 then
        if st.sf_winners.contains (some m1) && st.sf_winners.contains (some m2) then
          ("1st", st)
        else if st.sf_losers.contains (some m1) && st.sf_losers.contains (some m2) then
          ("3rd", st)
        else ("consolation", st)
      else ("regular", st)
    else
      if week_offset = 0 then
        ("SF", { st with sf_winners := st.sf_winners ++ [winner],
                         sf_losers := st.sf_losers ++ [loser] })
      else if week_offset = 1 then
        if st.sf_winners.contains (some m1) && st.sf_winners.contains (some m2) then
          ("1st", st)
        else ("3rd", st)
      else ("regular", st)
  else ("regular", st)

/-- A regular-season record of PASS 1 (`defaultdict` rows, line 59). -/
structure RegRec where
  wins : Nat
  losses : Nat
  pf : Rat
  deriving DecidableEq, Repr

/-- `defaultdict` read with the zero default. -/
def findRec (records : List (String × RegRec)) (name : String) : RegRec :=
  (((records.find? (fun p => p.1 = name)).map (fun p => p.2)).getD ⟨0, 0, 0⟩)

/-- `defaultdict` write: overwrite in place, or append a fresh entry. -/
def setRec (records : List (String × RegRec)) (name : String) (r : RegRec) :
    List (String × RegRec) :=
  if records.any (fun p => p.1 = name) then
    records.map (fun p => if p.1 = name then (name, r) else p)
  else records ++ [(name, r)]

/-- Insertion-order add to the PASS-1 manager set.  (Python's set has an
unspecified iteration order; the embedding fixes first-appearance order.
No claim depends on the order beyond which managers are present.) -/
def addName (names : List String) (n : String) : List String :=
  if names.contains n then names else names ++ [n]

/-- One pre-playoff matchup of PASS 1 (tools/build_history.py,
lines 63-72): accumulate points-for and win/loss records per primary
manager.  On equal points the `>` comparison hands the win to team 2. -/
def pass1Matchup (operator_nickname : String)
    (acc : List String × List (String × RegRec)) (m : RawMatchup) :
    Option (List String × List (String × RegRec)) := do
  let m1 ← get_primary_manager m.team1.managers operator_nickname
  let m2 ← get_primary_manager m.team2.managers operator_nickname
  let names := addName (addName acc.1 m1) m2
  let recs := acc.2
  let r1 := findRec recs m1
  let recs := setRec recs m1 { r1 with pf := r1.pf + m.team1.points }
  let r2 := findRec recs m2
  let recs := setRec recs m2 { r2 with pf := r2.pf + m.team2.points }
  let winner_check := if m.team2.points < m.team1.points then m1 else m2
  if winner_check = m1 then
    let r1 := findRec recs m1
    let recs := setRec recs m1 { r1 with wins := r1.wins + 1 }
    let r2 := findRec recs m2
    let recs := setRec recs m2 { r2 with losses := r2.losses + 1 }
    return (names, recs)
  else
    let r2 := findRec recs m2
    let recs := setRec recs m2 { r2 with wins := r2.wins + 1 }
    let r1 := findRec recs m1
    let recs := setRec recs m1 { r1 with losses := r1.losses + 1 }
    return (names, recs)

/-- PASS 1 (tools/build_history.py, lines 58-73): fold every pre-playoff
week's matchups into the standings accumulator. -/
def pass1 (playoff_start_week : Int) (operator_nickname : String)
    (weeks : List (Int × List RawMatchup)) :
    Option (List String × List (String × RegRec)) :=
  weeks.foldlM
    (fun acc wk =>
      if playoff_start_week ≤ wk.1 then pure acc
      else wk.2.foldlM (pass1Matchup operator_nickname) acc)
    ([], [])

/-- The descending `(wins, pf)` comparison of the standings sort
(line 73, `reverse=True`): earlier-enumerated managers stay first on equal
keys. -/
def standingsGT (records : List (String × RegRec)) (a b : String) : Bool :=
  let ra := findRec records a
  let rb := findRec records b
  rb.wins < ra.wins || (ra.wins = rb.wins && rb.pf < ra.pf)

/-- One matchup of PASS 2 (tools/build_history.py, lines 83-127): pick the
primary managers, derive winner and loser from the raw scores, classify
the game and append the ledger row. -/
def pass2Matchup (playoff_start_week num_playoff_teams : Int)
    (top_seeds_with_byes : List String) (operator_nickname : String)
    (season week : Int) (acc : List Game × BracketState) (m : RawMatchup) :
    Option (List Game × BracketState) := do
  let m1 ← get_primary_manager m.team1.managers operator_nickname
  let m2 ← get_primary_manager m.team2.managers operator_nickname
  let wl := computeWinner m.is_tied m.team1.points m.team2.points m1 m2
  let gs := bhGameType playoff_start_week num_playoff_teams top_seeds_with_byes
    acc.2 week m1 m2 wl.1 wl.2 m.is_playoffs m.is_consolation
  return (acc.1 ++
    [⟨season, week, gs.1, m1, m2, m.team1.points, m.team2.points, wl.1⟩], gs.2)

/-- PASS 2 over every week of a season. -/
def pass2 (playoff_start_week num_playoff_teams : Int)
    (top_seeds_with_byes : List String) (operator_nickname : String)
    (season : Int) (weeks : List (Int × List RawMatchup)) :
    Option (List Game × BracketState) :=
  weeks.foldlM
    (fun acc wk =>
      wk.2.foldlM
        (pass2Matchup playoff_start_week num_playoff_teams top_seeds_with_byes
          operator_nickname season wk.1) acc)
    ([], ⟨[], [], []⟩)

/-- One season of the raw cache: the settings
`(playoff_start_week, num_playoff_teams)` (absent modelled as `none`) and
the insertion-ordered weeks dict. -/
structure SeasonData where
  season : Int
  settings : Option (Int × Int)
  weeks : List (Int × List RawMatchup)
  deriving DecidableEq, Repr

/-- The per-season body of `build_historical_data_from_cache`
(tools/build_history.py, lines 48-127), for a season that was not skipped:
PASS 1 standings, top-two bye seeds when the bracket has at least six
teams, then PASS 2 classification.  `none` models an uncaught exception
(a zero-manager team). -/
def processSeason (operator_nickname : String) (season : Int)
    (playoff_start_week num_playoff_teams : Int)
    (weeks : List (Int × List RawMatchup)) : Option (List Game) := do
  let p1 ← pass1 playoff_start_week operator_nickname weeks
  let sorted_managers := sortStable (standingsGT p1.2) p1.1
  let top_seeds_with_byes :=
    if 6 ≤ num_playoff_teams then sorted_managers.take 2 else []
  let p2 ← pass2 playoff_start_week num_playoff_teams top_seeds_with_byes
    operator_nickname season weeks
  return p2.1

/-- `build_historical_data_from_cache` (tools/build_history.py,
lines 15-132), its file I/O stripped: seasons missing settings or weekly
data are skipped; an uncaught exception inside a season (zero-manager
team) aborts the whole build, modelled as `none`. -/
def build_historical_data_from_cache (operator_nickname : String)
    (raw_data : List SeasonData) : Option (List Game) :=
  raw_data.foldlM
    (fun acc sd =>
      match sd.settings, sd.weeks with
      | none, _ => pure acc
      | some _, [] => pure acc
      | some s, _ :: _ =>
        (processSeason operator_nickname sd.season s.1 s.2 sd.weeks).map
          (fun gs => acc ++ gs))
    []

/-- `needle` is a prefix of the haystack, on character lists. -/
def isPrefixList : List Char → List Char → Bool
  | [], _ => true
  | _ :: _, [] => false
  | a :: as, b :: bs => a = b && isPrefixList as bs

/-- `needle` occurs somewhere in the haystack, on character lists. -/
def containsList (needle : List Char) : List Char → Bool
  | [] => isPrefixList needle []
  | c :: rest => isPrefixList needle (c :: rest) || containsList needle rest

/-- Python's substring test `needle in hay`. -/
def strContains (hay needle : String) : Bool :=
  containsList needle.data hay.data

/-- Python's `a['last_game'] > b` on `{season, week}` dicts compared
field-by-field in `merge_manager_data` (dashboards/dashboard_h2h.py,
lines 60-61). -/
def lastGameGT (a b : Int × Int) : Bool :=
  b.1 < a.1 || (a.1 = b.1 && b.2 < a.2)

/-- Sort key of the merged playoff history: season only
(dashboards/dashboard_h2h.py, line 57). -/
def seasonLT (a b : GameInfo) : Bool :=
  a.season < b.season

/-- The `+=` lines 50-53 of `merge_manager_data`
(dashboards/dashboard_h2h.py) for distinct source and target records:
line 53 adds the source's off-side playoff wins into `playoff_wins_2` when
the opponent is the target record's manager 1, but into `reg_wins_1`
otherwise. -/
def mergeCounters (source_is_m1 target_is_m1 : Bool) (record tgt : H2HRecord) :
    H2HRecord :=
  let srcReg1 := if source_is_m1 then record.reg_wins_1 else record.reg_wins_2
  let srcReg2 := if source_is_m1 then record.reg_wins_2 else record.reg_wins_1
  let srcPo1 := if source_is_m1 then record.playoff_wins_1 else record.playoff_wins_2
  let srcPo2 := if source_is_m1 then record.playoff_wins_2 else record.playoff_wins_1
  let tgt :=
    if target_is_m1 then { tgt with reg_wins_1 := tgt.reg_wins_1 + srcReg1 }
    else { tgt with reg_wins_2 := tgt.reg_wins_2 + srcReg1 }
  let tgt :=
    if target_is_m1 then { tgt with reg_wins_2 := tgt.reg_wins_2 + srcReg2 }
    else { tgt with reg_wins_1 := tgt.reg_wins_1 + srcReg2 }
  let tgt :=
    if target_is_m1 then { tgt with playoff_wins_1 := tgt.playoff_wins_1 + srcPo1 }
    else { tgt with playoff_wins_2 := tgt.playoff_wins_2 + srcPo1 }
  let tgt :=
    if target_is_m1 then { tgt with playoff_wins_2 := tgt.playoff_wins_2 + srcPo2 }
    else { tgt with reg_wins_1 := tgt.reg_wins_1 + srcPo2 }
  tgt

/-- Lines 50-57 of `merge_manager_data` when the matched record and the
target record are the same dict object (`k = new_key`): every `+=` reads
the value already updated by the earlier lines.  With `b` the shared
`record['manager1_name'] == opponent`: all four counters double, except
that for `b = false` line 53 leaves `playoff_wins_1` alone and adds the
(unchanged) `playoff_wins_1` on top of the doubled `reg_wins_1`.  The
history is extended with itself, then sorted. -/
def mergeAliased (b : Bool) (r : H2HRecord) : H2HRecord :=
  let r' :=
    if b then
      { r with reg_wins_1 := r.reg_wins_1 + r.reg_wins_1,
               reg_wins_2 := r.reg_wins_2 + r.reg_wins_2,
               playoff_wins_1 := r.playoff_wins_1 + r.playoff_wins_1,
               playoff_wins_2 := r.playoff_wins_2 + r.playoff_wins_2 }
    else
      { r with reg_wins_1 := r.reg_wins_1 + r.reg_wins_1 + r.playoff_wins_1,
               reg_wins_2 := r.reg_wins_2 + r.reg_wins_2,
               playoff_wins_2 := r.playoff_wins_2 + r.playoff_wins_2 }
  { r' with playoff_history :=
      sortStable seasonLT (r.playoff_history ++ r.playoff_history) }

/-- The opponent of the alias in a matched record
(dashboards/dashboard_h2h.py, line 32). -/
def mergeOpponent (source : String) (record : H2HRecord) : String :=
  if record.manager2_name = source then record.manager1_name
  else record.manager2_name

/-- Lines 43-65 of `merge_manager_data`: the value the target entry ends
up holding.  When `k = new_key` the matched record and the target are the
same dict object and the `+=` lines double-count (`mergeAliased`);
otherwise the counters merge (`mergeCounters`, with the line-53 slip),
only the playoff history is concatenated (sorted by season alone), and
the streak fields come from whichever record has the later `last_game` —
`None.replace` raising `AttributeError` (modelled `none`) when the source
record holds no streak. -/
def mergeCombine (source target k new_key : String)
    (record tgt : H2HRecord) : Option H2HRecord :=
  let opponent := mergeOpponent source record
  let source_is_m1 := record.manager1_name = opponent
  let target_is_m1 := tgt.manager1_name = opponent
  if k = new_key then some (mergeAliased source_is_m1 record)
  else
    let tgt := mergeCounters source_is_m1 target_is_m1 record tgt
    let ph := sortStable seasonLT (tgt.playoff_history ++ record.playoff_history)
    let tgt := { tgt with playoff_history := ph }
    if lastGameGT record.last_game tgt.last_game then
      match record.streak_holder with
      | none => none
      | some s =>
        some { tgt with
          last_game := record.last_game,
          streak_holder := some (s.replace source target),
          streak_len := record.streak_len }
    else some tgt

/-- One iteration of the loop of `merge_manager_data`
(dashboards/dashboard_h2h.py, lines 27-65), on the live store.  `none`
models an uncaught exception: either the shell insertion of line 37
(inserting while iterating a dict raises `RuntimeError: dictionary
changed size during iteration` at the next step), or the
`AttributeError` inside `mergeCombine`. -/
def mergeStep (source target k : String) (store : H2HStore)
    (dels : List String) : Option (H2HStore × List String) :=
  if strContains k source then
    match storeFind store k with
    | none => none
    | some record =>
      match storeFind store (sortedKey target (mergeOpponent source record)) with
      | none => none
      | some tgt =>
        match mergeCombine source target k
            (sortedKey target (mergeOpponent source record)) record tgt with
        | none => none
        | some merged =>
          some (storeSet store (sortedKey target (mergeOpponent source record))
            merged, dels ++ [k])
  else some (store, dels)

/-- The loop of `merge_manager_data` over the keys the dict held when the
loop started, threading the live store and the keys-to-delete list. -/
def mergeItems (source target : String) :
    List String → H2HStore → List String → Option (H2HStore × List String)
  | [], store, dels => some (store, dels)
  | k :: rest, store, dels =>
    match mergeStep source target k store dels with
    | none => none
    | some r => mergeItems source target rest r.1 r.2

/-- One `MANAGERS_TO_MERGE` entry of `merge_manager_data`
(dashboards/dashboard_h2h.py, lines 25-68): run the loop over the current
keys, then delete every key that matched the alias. -/
def merge_one_alias (source target : String) (store : H2HStore) :
    Option H2HStore := do
  let r ← mergeItems source target (store.map (fun p => p.1)) store []
  return r.1.filter (fun p => !(r.2.contains p.1))

/-- `merge_manager_data` (dashboards/dashboard_h2h.py, lines 21-69): fold
the alias table, in its insertion order, over the store. -/
def merge_manager_data (table : List (String × String)) (store : H2HStore) :
    Option H2HStore :=
  table.foldlM (fun st p => merge_one_alias p.1 p.2 st) store

/-- Dict write on the `final_ranks_this_season` map of
`calculate_all_time_final_standings`. -/
def updateRank (f : String → Option Nat) (k : String) (v : Nat) :
    String → Option Nat :=
  fun x => if x = k then some v else f x

/-- One playoff game of the final-ranks loop
(src/dashboard_final_standings.py, lines 125-130): the side equal to
`winner_manager_name` is the winner (a tie falls to the `else` branch,
making team 2 the "winner"); `1st` fixes ranks 1/2, `3rd` fixes 3/4 and a
`QF` loss is queued for the 5th/6th tie-break. -/
def rankStep (acc : (String → Option Nat) × List String) (g : Game) :
    (String → Option Nat) × List String :=
  let m1 := g.team1_manager_name
  let m2 := g.team2_manager_name
  let wl := if g.winner_manager_name = some m1 then (m1, m2) else (m2, m1)
  if g.game_type = "1st" then
    (updateRank (updateRank acc.1 wl.1 1) wl.2 2, acc.2)
  else if g.game_type = "3rd" then
    (updateRank (updateRank acc.1 wl.1 3) wl.2 4, acc.2)
  else if g.game_type = "QF" then
    (acc.1, acc.2 ++ [wl.2])
  else acc

/-- The final-rank assignment of one season
(src/dashboard_final_standings.py, lines 122-135): replay the playoff
games, then, if any `QF` losers were queued, rank the first two of them
5th and 6th by their regular-season rank (`.get` default 99).  A single
queued loser makes `qf_losers[1]` raise IndexError, modelled as `none`. -/
def finalRanksForSeason (reg_season_rank_map : String → Option Nat)
    (playoff_games : List Game) : Option (String → Option Nat) :=
  let r := playoff_games.foldl rankStep ((fun _ => none), [])
  match r.2 with
  | [] => some r.1
  | [_] => none
  | l0 :: l1 :: _ =>
    let rank0 := (reg_season_rank_map l0).getD 99
    let rank1 := (reg_season_rank_map l1).getD 99
    if rank0 < rank1 then
      some (updateRank (updateRank r.1 l0 5) l1 6)
    else
      some (updateRank (updateRank r.1 l1 5) l0 6)

/-- Pointwise combination of two tally states: counters add, histories
concatenate.  `tallyGames` over an append splits along it. -/
def combineTally (a b : TallyState) : TallyState :=
  ⟨a.reg1 + b.reg1, a.reg2 + b.reg2, a.po1 + b.po1, a.po2 + b.po2,
   a.playoff_history ++ b.playoff_history,
   a.regular_history ++ b.regular_history⟩

/-- The part of a head-to-head record the incremental update maintains
exactly: the manager sides, the four win counters and the two history
lists (everything except the streak fields and `last_game`). -/
def tallyPart (r : H2HRecord) :
    String × String × Nat × Nat × Nat × Nat × List GameInfo × List GameInfo :=
  (r.manager1_name, r.manager2_name, r.reg_wins_1, r.reg_wins_2,
   r.playoff_wins_1, r.playoff_wins_2, r.regular_history, r.playoff_history)

/-- A ledger row and a raw weekly matchup describe the same game: same
season and week, same team sides, the ledger's `game_type` is what the
incremental updater recomputes from the raw flags, and the ledger winner
is the score winner the updater reads off `winner_team_key`. -/
def matchupMatches (season playoff_start_week num_playoff_teams : Int)
    (g : Game) (m : Matchup) : Prop :=
  g.season = season ∧ g.week = m.week ∧
  g.team1_manager_name = m.manager1 ∧ g.team2_manager_name = m.manager2 ∧
  g.game_type = previewGameType m playoff_start_week num_playoff_teams ∧
  g.winner_manager_name =
    (if m.is_tied then none
     else some (if m.winner_is_team1 then m.manager1 else m.manager2))

/-- An empty head-to-head record, for building concrete test stores. -/
def blankRecord : H2HRecord :=
  ⟨"", "", 0, 0, 0, 0, [], [], none, 0, none, 0, none, none, (0, 0)⟩

/-- Concrete prefix game: A beats B in week 1 of 2024 (regular season). -/
def c1PrefixGame : Game := ⟨2024, 1, "regular", "A", "B", 5, 3, some "A"⟩

/-- Concrete suffix game: A beats B again in week 2 (regular season). -/
def c1SuffixGame : Game := ⟨2024, 2, "regular", "A", "B", 6, 3, some "A"⟩

/-- The week-2 game as the raw weekly matchup the incremental updater
consumes (not playoffs, not tied, team 1 = A wins). -/
def c1SuffixMatchup : Matchup := ⟨2, false, false, false, false, "A", "B", true⟩

/-- The store holding the batch aggregate built from the prefix alone. -/
def c1PrefixStore : H2HStore :=
  match calculate_h2h_for_pair "A" "B" [c1PrefixGame] with
  | some r => [(sortedKey "A" "B", r)]
  | none => []

/-- The batch aggregate over the prefix alone, written out: what
`calculate_h2h_for_pair "A" "B" [c1PrefixGame]` returns. -/
def c1PrefixRecord : H2HRecord :=
  ⟨"A", "B", 1, 0, 0, 0, [], [⟨"A", "regular", 2024, 1⟩],
   some "A", 1, some "A", 1, some (2024, 1), some (2024, 1), (2024, 1)⟩

/-- Alias-side record for the merge example: the pair (Al, Sam), Al being
an alias of Ryan.  Al's side is `manager1`. -/
def mergeExSource : H2HRecord :=
  { blankRecord with
      manager1_name := "Al"
      manager2_name := "Sam"
      reg_wins_1 := 1
      reg_wins_2 := 4
      playoff_wins_1 := 3
      playoff_wins_2 := 2
      streak_holder := some "Al"
      streak_len := 1
      last_game := (2020, 1) }

/-- Existing canonical record for the merge example: the pair
(Ryan, Sam), Ryan's side is `manager1`, so the opponent Sam is
`manager2` and `target_is_m1` is false during the merge. -/
def mergeExTarget : H2HRecord :=
  { blankRecord with
      manager1_name := "Ryan"
      manager2_name := "Sam"
      reg_wins_1 := 2
      reg_wins_2 := 5
      playoff_wins_1 := 7
      playoff_wins_2 := 6
      streak_holder := some "Sam"
      streak_len := 2
      last_game := (2021, 1) }

/-- The merge example store: both records present, so the fold hits the
existing-record path of `merge_manager_data`. -/
def mergeExStore : H2HStore :=
  [("Al-Sam", mergeExSource), ("Ryan-Sam", mergeExTarget)]

/-- A raw matchup whose first team has zero managers. -/
def c7BadMatchup : RawMatchup := ⟨⟨[], 5⟩, ⟨["B"], 3⟩, false, false, false⟩

/-- A season whose only matchup has a team with zero managers. -/
def c7BadSeason : SeasonData := ⟨2019, some (2, 4), [(1, [c7BadMatchup])]⟩

/-- A well-formed one-game season. -/
def c7GoodSeason : SeasonData :=
  ⟨2020, some (2, 4), [(1, [⟨⟨["A"], 5⟩, ⟨["B"], 3⟩, false, false, false⟩])]⟩

/-- A quarterfinal game of the rank example: W beats the given loser. -/
def c9QFGame (loser : String) : Game :=
  ⟨2020, 14, "QF", "W", loser, 9, 1, some "W"⟩

/-- The regular-season rank map of the rank example. -/
def c9RankMap : String → Option Nat :=
  fun x => if x = "L1" then some 3 else if x = "L2" then some 5 else none

/-- The record `calculate_h2h_for_pair` returns stores its two name
arguments unchanged as the manager fields. -/
theorem calc_pair_manager_names (n1 n2 : String) (l : List Game)
    (r : H2HRecord) (h : calculate_h2h_for_pair n1 n2 l = some r) :
    r.manager1_name = n1 ∧ r.manager2_name = n2 := by
  simp only [calculate_h2h_for_pair] at h
  cases hl : (sortStable chronLT (l.filter (pairMatch n1 n2))).getLast? with
  | none => rw [hl] at h; exact absurd h (by simp)
  | some lastg =>
    rw [hl] at h
    injection h with h'
    subst h'
    exact ⟨rfl, rfl⟩

/-- An `Option`-valued fold dies as soon as some element of the list fails
for every accumulator (an uncaught exception inside a Python loop). -/
theorem foldlM_option_none {α β : Type} (f : β → α → Option β) (l : List α)
    (e : α) (he : e ∈ l) (hf : ∀ b, f b e = none) :
    ∀ init, l.foldlM f init = none := by
  induction l with
  | nil => cases he
  | cons x xs ih =>
    intro init
    rw [List.foldlM_cons]
    rcases List.mem_cons.mp he with rfl | hmem
    · rw [hf init]; rfl
    · cases hx : f init x with
      | none => rfl
      | some b => simpa using ih hmem b

/-- A zero-manager team makes the PASS-2 matchup step raise, whatever the
accumulated state. -/
theorem pass2Matchup_none (psw npt : Int) (seeds : List String) (op : String)
    (season week : Int) (acc : List Game × BracketState) (m : RawMatchup)
    (hz : m.team1.managers = []) :
    pass2Matchup psw npt seeds op season week acc m = none := by
  simp [pass2Matchup, hz, get_primary_manager]

/-- A zero-manager team anywhere in the season's weeks kills PASS 2. -/
theorem pass2_none (psw npt : Int) (seeds : List String) (op : String)
    (season : Int) (weeks : List (Int × List RawMatchup)) (wk : Int)
    (ms : List RawMatchup) (m : RawMatchup) (hwk : (wk, ms) ∈ weeks)
    (hm : m ∈ ms) (hz : m.team1.managers = []) :
    pass2 psw npt seeds op season weeks = none := by
  unfold pass2
  apply foldlM_option_none _ weeks (wk, ms) hwk
  intro acc
  exact foldlM_option_none _ ms m hm
    (fun acc' => pass2Matchup_none psw npt seeds op season wk acc' m hz) acc

/-- A zero-manager team anywhere in a season's weeks makes the whole
per-season computation raise: either PASS 1 hits it, or PASS 2 does. -/
theorem processSeason_none (op : String) (season psw npt : Int)
    (weeks : List (Int × List RawMatchup)) (wk : Int) (ms : List RawMatchup)
    (m : RawMatchup) (hwk : (wk, ms) ∈ weeks) (hm : m ∈ ms)
    (hz : m.team1.managers = []) :
    processSeason op season psw npt weeks = none := by
  unfold processSeason
  cases h1 : pass1 psw op weeks with
  | none => rfl
  | some p1 =>
    simp [h1, pass2_none psw npt _ op season weeks wk ms m hwk hm hz]

/-- Every entry the store-building fold of `initialize_h2h_records`
appends is keyed by the sorted join of its record's manager fields. -/
theorem init_h2h_keys_sorted_aux (data : List Game)
    (pairs : List (String × String)) (acc : H2HStore)
    (hacc : acc.all
      (fun p => p.1 == sortedKey p.2.manager1_name p.2.manager2_name) = true) :
    (pairs.foldl (fun store p =>
        match calculate_h2h_for_pair p.1 p.2 data with
        | none => store
        | some r => store ++ [(sortedKey p.1 p.2, r)]) acc).all
      (fun p => p.1 == sortedKey p.2.manager1_name p.2.manager2_name) = true := by
  induction pairs generalizing acc with
  | nil => exact hacc
  | cons q qs ih =>
    simp only [List.foldl_cons]
    cases hc : calculate_h2h_for_pair q.1 q.2 data with
    | none => exact ih acc hacc
    | some r =>
      apply ih
      have hn := calc_pair_manager_names q.1 q.2 data r hc
      simp [List.all_append, hacc, hn.1, hn.2]

/-- C2: the claim says consolation games are excluded entirely from all
tallies of a pair's record, including the streak fields and `last_game`.
The batch build's streak loops and `last_game` run over the unfiltered
game list: adding a consolation win after a single regular win moves the
current and longest streak from 1 to 2 and advances `last_game`, while
the win counters and history correctly ignore it. -/
theorem c2_consolation_changes_streaks :
    (calculate_h2h_for_pair "A" "B"
        [⟨1, 1, "regular", "A", "B", 5, 3, some "A"⟩,
         ⟨1, 2, "consolation", "A", "B", 5, 3, some "A"⟩]).map
      (fun r => (r.reg_wins_1, r.reg_wins_2, r.regular_history.length,
        r.streak_holder, r.streak_len, r.longest_streak_len, r.last_game)) =
      some (1, 0, 1, some "A", 2, 2, (1, 2)) ∧
    (calculate_h2h_for_pair "A" "B"
        [⟨1, 1, "regular", "A", "B", 5, 3, some "A"⟩]).map
      (fun r => (r.reg_wins_1, r.reg_wins_2, r.regular_history.length,
        r.streak_holder, r.streak_len, r.longest_streak_len, r.last_game)) =
      some (1, 0, 1, some "A", 1, 1, (1, 1)) :=
  ⟨rfl, rfl⟩

/-- C5 (amended): in the six-or-more-team bracket, a playoff-week matchup
matching neither the eligible-winners set (semifinal week) nor a known
bracket role (final week) falls back to `consolation`; in the
smaller-bracket branch, however, the week after the semifinals defaults
to `3rd`, not `consolation`, for any matchup not between the two
semifinal winners. -/
theorem c5_unresolved_slot_default (psw npt : Int) (seeds : List String)
    (st : BracketState) (week : Int) (m1 m2 : String)
    (winner loser : Option String) :
    (6 ≤ npt → week - psw = 1 →
      (((st.qf_winners ++ seeds.map some).contains (some m1) &&
        (st.qf_winners ++ seeds.map some).contains (some m2)) = false) →
      (bhGameType psw npt seeds st week m1 m2 winner loser true false).1 =
        "consolation") ∧
    (6 ≤ npt → week - psw = 2 →
      ((st.sf_winners.contains (some m1) &&
        st.sf_winners.contains (some m2)) = false) →
      ((st.sf_losers.contains (some m1) &&
        st.sf_losers.contains (some m2)) = false) →
      (bhGameType psw npt seeds st week m1 m2 winner loser true false).1 =
        "consolation") ∧
    (npt < 6 → week - psw = 1 →
      ((st.sf_winners.contains (some m1) &&
        st.sf_winners.contains (some m2)) = false) →
      (bhGameType psw npt seeds st week m1 m2 winner loser true false).1 =
        "3rd") := by
  refine ⟨fun h6 hw hc => ?_, fun h6 hw hcw hcl => ?_, fun h6 hw hc => ?_⟩
  · simp only [bhGameType, hw, h6, hc]
    simp
  · simp only [bhGameType, hw, h6, hcw, hcl]
    simp
  · simp only [bhGameType, hw, hc]
    simp [show ¬ (6 ≤ npt) by omega]

/-- Witness for C5: a concrete playoff-week matchup between two teams in
neither eligible set is classified consolation in the big bracket. -/
theorem c5_unresolved_slot_default_witness :
    (bhGameType 14 8 ["S1", "S2"] ⟨[some "Q1", some "Q2"], [], []⟩ 15 "X" "Y"
        (some "X") (some "Y") true false).1 = "consolation" :=
  (c5_unresolved_slot_default 14 8 ["S1", "S2"]
      ⟨[some "Q1", some "Q2"], [], []⟩ 15 "X" "Y"
      (some "X") (some "Y")).1 (by decide) (by decide) (by decide)

/-- C5 counterexample: with a four-team bracket, the offset-one playoff
matchup between `Aa` and `Bb` — participants in neither the semifinal
winners nor any bracket role — is classified `3rd`, not the
`consolation` the claim requires. -/
theorem c5_small_bracket_else_is_third :
    (bhGameType 14 4 [] ⟨[], [some "C", some "D"], [some "E", some "F"]⟩ 15
        "Aa" "Bb" (some "Aa") (some "Bb") true false).1 = "3rd" ∧
    ("3rd" : String) ≠ "consolation" := by
  constructor
  · rfl
  · decide

/-- C6 (amended): when the incremental update meets a game whose pair has
no record in the store, the game is skipped outright — the store comes
back unchanged (no first-meeting record is created) and no error is
raised. -/
theorem c6_missing_prior_skips (m : Matchup) (store : H2HStore)
    (season psw npt : Int)
    (h : storeFind store (sortedKey m.manager1 m.manager2) = none) :
    update_h2h_records [m] store season psw npt = some store := by
  have h1 : update_h2h_one season psw npt store m = store := by
    by_cases hh : (m.manager1 = "--hidden--" || m.manager2 = "--hidden--") = true
    · simp [update_h2h_one, hh]
    · simp [update_h2h_one, hh, h]
  simp [update_h2h_records, h1]

/-- Witness for C6: updating an empty store with one game returns the
empty store. -/
theorem c6_missing_prior_skips_witness :
    update_h2h_records [c1SuffixMatchup] [] 2024 15 6 = some [] :=
  c6_missing_prior_skips c1SuffixMatchup [] 2024 15 6 rfl

/-- C6 counterexample: after updating an empty store with A's win over B,
the store holds no record for the pair, although a fresh full computation
over that same game would produce one — so the pair is not "treated as a
first meeting" as the claim states. -/
theorem c6_no_record_created :
    update_h2h_records [c1SuffixMatchup] [] 2024 15 6 = some [] ∧
    (calculate_h2h_for_pair "A" "B" [c1SuffixGame]).isSome = true :=
  ⟨rfl, rfl⟩

/-- C8: with a tie flag consistent with the raw scores, the ledger's
winner is the higher-scoring side's manager, and it is `None` exactly on
a tie. -/
theorem c8_winner_from_scores (is_tied : Bool) (p1 p2 : Rat) (m1 m2 : String)
    (h : is_tied = decide (p1 = p2)) :
    (p2 < p1 → (computeWinner is_tied p1 p2 m1 m2).1 = some m1) ∧
    (p1 < p2 → (computeWinner is_tied p1 p2 m1 m2).1 = some m2) ∧
    ((computeWinner is_tied p1 p2 m1 m2).1 = none ↔ p1 = p2) := by
  subst h
  by_cases he : p1 = p2
  · simp [computeWinner, he]
  · rcases lt_or_gt_of_ne he with hlt | hgt
    · by_cases hm : m2 = m1
      · simp [computeWinner, he, not_lt_of_gt hlt, hm, hlt]
      · simp [computeWinner, he, not_lt_of_gt hlt, hm]
    · simp [computeWinner, he, hgt, not_lt_of_gt hgt]

/-- Witness for C8: 5 beats 3 and the winner is team 1's manager. -/
theorem c8_winner_from_scores_witness :
    (computeWinner false 5 3 "A" "B").1 = some "A" :=
  (c8_winner_from_scores false 5 3 "A" "B" (by decide)).1 (by decide)

/-- C9: when exactly two teams lose a quarterfinal game, the loser with
the lower (better) regular-season rank number receives final rank 5 and
the other receives rank 6. -/
theorem c9_qf_losers_by_regular_rank (rank_map : String → Option Nat)
    (playoff_games : List Game) (a b : String) (ra rb : Nat)
    (hq : (playoff_games.foldl rankStep ((fun _ => (none : Option Nat)),
      ([] : List String))).2 = [a, b])
    (hab : a ≠ b) (hra : rank_map a = some ra) (hrb : rank_map b = some rb) :
    (ra < rb → (finalRanksForSeason rank_map playoff_games).map
        (fun f => (f a, f b)) = some (some 5, some 6)) ∧
    (rb < ra → (finalRanksForSeason rank_map playoff_games).map
        (fun f => (f a, f b)) = some (some 6, some 5)) := by
  simp only [finalRanksForSeason]
  rw [hq]
  simp only [hra, hrb, Option.getD_some]
  constructor
  · intro hlt
    rw [if_pos hlt]
    simp [updateRank, hab]
  · intro hgt
    rw [if_neg (by omega)]
    simp [updateRank, hab, Ne.symm hab]

/-- Witness for C9: losers L1 (rank 3) and L2 (rank 5) of the two
quarterfinals receive the final ranks 5 and 6. -/
theorem c9_qf_losers_by_regular_rank_witness :
    (finalRanksForSeason c9RankMap [c9QFGame "L1", c9QFGame "L2"]).map
      (fun f => (f "L1", f "L2")) = some (some 5, some 6) :=
  (c9_qf_losers_by_regular_rank c9RankMap [c9QFGame "L1", c9QFGame "L2"]
      "L1" "L2" 3 5 rfl (by decide) rfl rfl).1 (by decide)

/-- C10 (amended): every key of the store built by
`initialize_h2h_records` is the lexicographically sorted join of its
record's two manager name fields; the manager fields themselves keep the
enumeration order of the pair. -/
theorem c10_store_keys_sorted (names : List String) (data : List Game) :
    (initialize_h2h_records names data).all
      (fun p => p.1 == sortedKey p.2.manager1_name p.2.manager2_name) = true := by
  unfold initialize_h2h_records
  exact init_h2h_keys_sorted_aux data (combinations2 names) [] rfl

/-- C10 counterexample: enumerating the manager set as [Zed, Abe] (a
possible Python set order) stores the record under the sorted key
"Abe-Zed" but with `manager1_name = "Zed"`, which is not the
lexicographically smaller of the two names. -/
theorem c10_manager1_not_smaller :
    (initialize_h2h_records ["Zed", "Abe"]
        [⟨1, 1, "regular", "Zed", "Abe", 5, 3, some "Zed"⟩]).map
      (fun p => (p.1, p.2.manager1_name, p.2.manager2_name)) =
      [("Abe-Zed", "Zed", "Abe")] ∧
    strLT "Abe" "Zed" = true :=
  ⟨rfl, rfl⟩

/-- C3: evaluating the identity merge on a store where the target record
lists the shared opponent as its `manager2`: the claim says win counters
merge by side-aligned addition, but the result has
`reg_wins_1 = 6 = 2 + 1 + 3` (polluted by the source's 3 playoff wins)
while `playoff_wins_1` stays 7 instead of the side-aligned sum 10; the
regular history is not concatenated at all. -/
theorem c3_merge_misassigns_counters :
    (merge_manager_data [("Al", "Ryan")] mergeExStore).map
      (fun st => st.map (fun p => (p.1, p.2.reg_wins_1, p.2.reg_wins_2,
        p.2.playoff_wins_1, p.2.playoff_wins_2, p.2.regular_history))) =
      some [("Ryan-Sam", 6, 9, 7, 8, [])] ∧
    mergeExTarget.reg_wins_1 + mergeExSource.reg_wins_1 ≠ 6 ∧
    mergeExTarget.playoff_wins_1 + mergeExSource.playoff_wins_1 ≠ 7 := by
  refine ⟨rfl, by decide, by decide⟩

/-- C7 counterexample: a zero-manager team in the 2019 season makes the
whole build return nothing — the 2020 season, which on its own processes
fine, is not processed and the run does not complete. -/
theorem c7_whole_run_fails :
    build_historical_data_from_cache "Dylan" [c7BadSeason, c7GoodSeason] =
      none ∧
    (build_historical_data_from_cache "Dylan" [c7GoodSeason]).isSome = true :=
  ⟨rfl, rfl⟩

/-- C7 (amended): a team with zero managers raises an uncaught IndexError
in `get_primary_manager`, aborting the entire build — no later season is
processed and nothing is reported per-season. -/
theorem c7_zero_manager_aborts_run (op : String) (season psw npt : Int)
    (weeks : List (Int × List RawMatchup)) (rest : List SeasonData)
    (wk : Int) (ms : List RawMatchup) (m : RawMatchup)
    (hwk : (wk, ms) ∈ weeks) (hm : m ∈ ms) (hz : m.team1.managers = []) :
    build_historical_data_from_cache op
      (⟨season, some (psw, npt), weeks⟩ :: rest) = none := by
  unfold build_historical_data_from_cache
  rw [List.foldlM_cons]
  cases weeks with
  | nil => cases hwk
  | cons w ws =>
    simp [processSeason_none op season psw npt (w :: ws) wk ms m hwk hm hz]

/-- Witness for C7: the bad 2019 season alone aborts the build. -/
theorem c7_zero_manager_aborts_run_witness :
    build_historical_data_from_cache "Dylan" [c7BadSeason] = none :=
  c7_zero_manager_aborts_run "Dylan" 2019 2 4 [(1, [c7BadMatchup])] []
    1 [c7BadMatchup] c7BadMatchup (List.mem_singleton.mpr rfl)
    (List.mem_singleton.mpr rfl) rfl

/-- Overwriting an existing entry never changes the key list. -/
theorem storeSet_keys (store : H2HStore) (k : String) (r : H2HRecord) :
    (storeSet store k r).map (fun p => p.1) = store.map (fun p => p.1) := by
  induction store with
  | nil => rfl
  | cons p ps ih =>
    simp only [storeSet, List.map_cons] at *
    by_cases h : p.1 = k
    · simp [h, ih]
    · simp [h, ih]

/-- A successful merge-loop iteration preserves the store's key list,
only grows the keys-to-delete list, and queues its key for deletion
whenever that key contains the alias. -/
theorem mergeStep_spec (source target k : String) (store : H2HStore)
    (dels : List String) (r : H2HStore × List String)
    (h : mergeStep source target k store dels = some r) :
    r.1.map (fun p => p.1) = store.map (fun p => p.1) ∧
    (∀ x ∈ dels, x ∈ r.2) ∧
    (strContains k source = true → k ∈ r.2) := by
  unfold mergeStep at h
  split at h
  · split at h
    · exact Option.noConfusion h
    · split at h
      · exact Option.noConfusion h
      · split at h
        · exact Option.noConfusion h
        · injection h with h'
          subst h'
          exact ⟨storeSet_keys store _ _,
            fun x hx => List.mem_append_left _ hx,
            fun _ => List.mem_append_right _ (List.mem_singleton_self k)⟩
  · injection h with h'
    subst h'
    rename_i hc
    exact ⟨rfl, fun x hx => hx, fun hk => absurd hk hc⟩

/-- The whole merge loop: keys preserved, deletions only accumulate, and
every iterated key containing the alias ends up queued for deletion. -/
theorem mergeItems_spec (source target : String) (ks : List String)
    (store : H2HStore) (dels : List String) (out : H2HStore × List String)
    (h : mergeItems source target ks store dels = some out) :
    out.1.map (fun p => p.1) = store.map (fun p => p.1) ∧
    (∀ x ∈ dels, x ∈ out.2) ∧
    (∀ k ∈ ks, strContains k source = true → k ∈ out.2) := by
  induction ks generalizing store dels with
  | nil =>
    simp only [mergeItems] at h
    injection h with h'
    subst h'
    exact ⟨rfl, fun x hx => hx, fun k hk => absurd hk (List.not_mem_nil k)⟩
  | cons k ks ih =>
    simp only [mergeItems] at h
    cases hs : mergeStep source target k store dels with
    | none => rw [hs] at h; exact Option.noConfusion h
    | some r =>
      rw [hs] at h
      obtain ⟨hkeys, hmono, hhead⟩ := mergeStep_spec source target k store dels r hs
      obtain ⟨ikeys, imono, irest⟩ := ih r.1 r.2 h
      refine ⟨ikeys.trans hkeys, fun x hx => imono x (hmono x hx), ?_⟩
      intro k' hk' hc'
      rcases List.mem_cons.mp hk' with rfl | hmem
      · exact imono k' (hhead hc')
      · exact irest k' hmem hc'

/-- A merge loop over keys none of which contain the alias does
nothing. -/
theorem mergeItems_nomatch (source target : String) (ks : List String)
    (store : H2HStore) (dels : List String)
    (h : ∀ k ∈ ks, strContains k source = false) :
    mergeItems source target ks store dels = some (store, dels) := by
  induction ks with
  | nil => rfl
  | cons k ks ih =>
    have hstep : mergeStep source target k store dels = some (store, dels) := by
      unfold mergeStep
      simp [h k (List.mem_cons_self k ks)]
    simp only [mergeItems, hstep]
    exact ih (fun k' hk' => h k' (List.mem_cons_of_mem _ hk'))

/-- After one alias is folded successfully, no surviving key contains that
alias (every matching key was deleted), and no new key appeared. -/
theorem merge_one_alias_keys (source target : String) (store out : H2HStore)
    (h : merge_one_alias source target store = some out) :
    ∀ k ∈ out.map (fun p => p.1),
      strContains k source = false ∧ k ∈ store.map (fun p => p.1) := by
  unfold merge_one_alias at h
  cases hm : mergeItems source target (store.map (fun p => p.1)) store [] with
  | none => rw [hm] at h; exact Option.noConfusion h
  | some r =>
    rw [hm] at h
    obtain ⟨hkeys, _, hmatched⟩ := mergeItems_spec source target _ store [] r hm
    injection h with h'
    subst h'
    intro k hk
    obtain ⟨p, hp, rfl⟩ := List.mem_map.mp hk
    have hpf := List.mem_filter.mp hp
    have hinr1 : p.1 ∈ r.1.map (fun p => p.1) := List.mem_map_of_mem _ hpf.1
    have hinstore : p.1 ∈ store.map (fun p => p.1) := hkeys ▸ hinr1
    refine ⟨?_, hinstore⟩
    by_contra hcon
    have hct : strContains p.1 source = true := by
      cases hb : strContains p.1 source with
      | true => rfl
      | false => exact absurd hb hcon
    have hdel : p.1 ∈ r.2 := hmatched p.1 hinstore hct
    have hnot : (r.2.contains p.1) = false := by
      have := hpf.2
      simpa using this
    have : p.1 ∉ r.2 := by simpa using hnot
    exact this hdel

/-- Folding an alias no surviving key contains is the identity. -/
theorem merge_one_alias_nomatch (source target : String) (store : H2HStore)
    (h : ∀ k ∈ store.map (fun p => p.1), strContains k source = false) :
    merge_one_alias source target store = some store := by
  unfold merge_one_alias
  rw [mergeItems_nomatch source target _ store [] h]
  exact congrArg some (List.filter_eq_self.mpr (fun a _ => rfl))

/-- The full merge never invents keys. -/
theorem merge_keys_sub (table : List (String × String)) (store out : H2HStore)
    (h : merge_manager_data table store = some out) :
    ∀ k ∈ out.map (fun p => p.1), k ∈ store.map (fun p => p.1) := by
  induction table generalizing store with
  | nil =>
    simp only [merge_manager_data, List.foldlM_nil] at h
    injection h with h'
    subst h'
    exact fun k hk => hk
  | cons q tbl ih =>
    simp only [merge_manager_data, List.foldlM_cons] at h
    cases hm : merge_one_alias q.1 q.2 store with
    | none => rw [hm] at h; exact Option.noConfusion h
    | some mid =>
      rw [hm] at h
      intro k hk
      have hmid : merge_manager_data tbl mid = some out := h
      exact (merge_one_alias_keys q.1 q.2 store mid hm k (ih mid hmid k hk)).2

/-- After a successful merge, no surviving key contains any alias of the
table. -/
theorem merge_no_source_left (table : List (String × String))
    (store out : H2HStore) (h : merge_manager_data table store = some out) :
    ∀ p ∈ table, ∀ k ∈ out.map (fun q => q.1), strContains k p.1 = false := by
  induction table generalizing store with
  | nil => intro p hp; cases hp
  | cons q tbl ih =>
    simp only [merge_manager_data, List.foldlM_cons] at h
    cases hm : merge_one_alias q.1 q.2 store with
    | none => rw [hm] at h; exact Option.noConfusion h
    | some mid =>
      rw [hm] at h
      have hmid : merge_manager_data tbl mid = some out := h
      intro p hp k hk
      rcases List.mem_cons.mp hp with rfl | hmem
      · exact (merge_one_alias_keys p.1 p.2 store mid hm k
          (merge_keys_sub tbl mid out hmid k hk)).1
      · exact ih mid hmid p hmem k hk

/-- A merge whose aliases appear in no key of the store is the
identity. -/
theorem merge_nomatch_all (table : List (String × String)) (store : H2HStore)
    (h : ∀ p ∈ table, ∀ k ∈ store.map (fun q => q.1), strContains k p.1 = false) :
    merge_manager_data table store = some store := by
  induction table with
  | nil => rfl
  | cons q tbl ih =>
    simp only [merge_manager_data, List.foldlM_cons]
    rw [merge_one_alias_nomatch q.1 q.2 store (h q (List.mem_cons_self q tbl))]
    exact ih (fun p hp => h p (List.mem_cons_of_mem _ hp))

/-- C4: the identity merge is idempotent (in the Kleisli sense: when the
first application raises, so does the composite).  A successful first
application deletes every key containing an alias and creates none, so a
second application finds nothing to fold and returns its input
unchanged. -/
theorem c4_merge_idempotent (table : List (String × String))
    (store : H2HStore) :
    (merge_manager_data table store).bind (merge_manager_data table) =
      merge_manager_data table store := by
  cases h : merge_manager_data table store with
  | none => rfl
  | some out =>
    exact merge_nomatch_all table out
      (fun p hp k hk => merge_no_source_left table store out h p hp k hk)

/-- C1 counterexample: with the prefix "A beat B in week 1" and the
suffix "A beat B in week 2", the batch rebuild over the whole history has
`longest_streak_len = 2`, but the incremental update applied to the
prefix aggregate leaves it at 1 — the two are not byte-identical. -/
theorem c1_longest_streak_diverges :
    ((update_h2h_records [c1SuffixMatchup] c1PrefixStore 2024 15 6).bind
        (fun st => storeFind st (sortedKey "A" "B"))).map
      (fun r => r.longest_streak_len) = some 1 ∧
    (calculate_h2h_for_pair "A" "B" [c1PrefixGame, c1SuffixGame]).map
      (fun r => r.longest_streak_len) = some 2 :=
  ⟨rfl, rfl⟩

/-- The lexicographic character order is asymmetric. -/
theorem charListLT_asymm : ∀ x y : List Char,
    charListLT x y = true → charListLT y x = false := by
  intro x
  induction x with
  | nil =>
    intro y h
    cases y with
    | nil => exact absurd h (by simp [charListLT])
    | cons b bs => simp [charListLT]
  | cons a as ih =>
    intro y h
    cases y with
    | nil => exact absurd h (by simp [charListLT])
    | cons b bs =>
      simp only [charListLT, Bool.or_eq_true, Bool.and_eq_true,
        decide_eq_true_eq] at h ⊢
      simp only [Bool.or_eq_false_iff, Bool.and_eq_false_iff]
      rcases h with hab | ⟨hab, hr⟩
      · constructor
        · simp [not_lt_of_gt hab, lt_asymm hab]
        · left
          simp
          intro hba
          exact absurd (hba ▸ hab) (lt_irrefl b)
      · subst hab
        constructor
        · simp
        · right
          exact ih bs hr

/-- Two lists neither of which precedes the other are equal. -/
theorem charListLT_connex : ∀ x y : List Char,
    charListLT x y = false → charListLT y x = false → x = y := by
  intro x
  induction x with
  | nil =>
    intro y h1 _
    cases y with
    | nil => rfl
    | cons b bs => exact absurd h1 (by simp [charListLT])
  | cons a as ih =>
    intro y h1 h2
    cases y with
    | nil => exact absurd h2 (by simp [charListLT])
    | cons b bs =>
      simp only [charListLT, Bool.or_eq_false_iff, Bool.and_eq_false_iff,
        decide_eq_false_iff_not] at h1 h2
      have hab : a = b := le_antisymm (not_lt.mp h2.1) (not_lt.mp h1.1)
      subst hab
      rcases h1.2 with hc | hr1
      · exact absurd rfl hc
      · rcases h2.2 with hc | hr2
        · exact absurd rfl hc
        · rw [ih bs hr1 hr2]

/-- String order asymmetry. -/
theorem strLT_asymm (a b : String) (h : strLT a b = true) : strLT b a = false :=
  charListLT_asymm a.data b.data h

/-- String order connexity. -/
theorem strLT_connex (a b : String) (h1 : strLT a b = false)
    (h2 : strLT b a = false) : a = b := by
  apply String.ext
  exact charListLT_connex a.data b.data h1 h2

/-- The store key does not depend on the order of the two names. -/
theorem sortedKey_comm (a b : String) : sortedKey a b = sortedKey b a := by
  unfold sortedKey
  cases h1 : strLT b a with
  | true => simp [h1, strLT_asymm b a h1]
  | false =>
    cases h2 : strLT a b with
    | true => simp [h1, h2]
    | false => rw [strLT_connex a b h2 h1]

/-- Sorting an already strictly sorted list changes nothing. -/
theorem sortStable_eq_self {α : Type} (lt : α → α → Bool)
    (hasym : ∀ a b, lt a b = true → lt b a = false) :
    ∀ l : List α, List.Chain' (fun a b => lt a b = true) l →
      sortStable lt l = l := by
  intro l
  induction l with
  | nil => intro _; rfl
  | cons x xs ih =>
    intro hch
    simp only [sortStable, ih hch.tail]
    cases xs with
    | nil => rfl
    | cons y ys =>
      have hxy : lt x y = true := (List.chain'_cons.mp hch).1
      simp only [insertStable, hasym x y hxy]
      rfl

/-- The chronological game order is asymmetric. -/
theorem chronLT_asymm (a b : Game) (h : chronLT a b = true) :
    chronLT b a = false := by
  simp only [chronLT, Bool.or_eq_true, Bool.and_eq_true, decide_eq_true_eq] at h
  simp only [chronLT, Bool.or_eq_false_iff, Bool.and_eq_false_iff,
    decide_eq_false_iff_not]
  constructor
  · omega
  · rcases h with h | h
    · left; omega
    · right; omega

/-- The win/history tally splits along an append of game lists. -/
theorem tallyGames_append (n1 n2 : String) (A B : List Game) :
    tallyGames n1 n2 (A ++ B) =
      combineTally (tallyGames n1 n2 A) (tallyGames n1 n2 B) := by
  induction A with
  | nil =>
    ext <;> simp [tallyGames, combineTally]
  | cons g A ih =>
    simp only [List.cons_append, tallyGames, List.append_eq]
    rw [ih]
    by_cases h1 : g.game_type = "consolation"
    · simp only [h1, ite_true, if_true]
    · by_cases h2 : g.winner_manager_name = some n1
      · by_cases h3 : playoffTypes.contains g.game_type = true
        · simp only [h1, h2, h3, if_true, if_false, ite_true, ite_false]
          ext <;> simp [combineTally] <;> omega
        · simp only [h1, h2, h3, if_true, if_false, ite_true, ite_false]
          ext <;> simp [combineTally] <;> omega
      · by_cases h4 : g.winner_manager_name = some n2
        · have h5 : ¬ (n2 = n1) := fun e => h2 (e ▸ h4)
          by_cases h3 : playoffTypes.contains g.game_type = true
          · simp only [h1, h2, h3, h4, h5, if_true, if_false, ite_true, ite_false]
            ext <;> simp [combineTally, h5] <;> omega
          · simp only [h1, h2, h3, h4, h5, if_true, if_false, ite_true, ite_false]
            ext <;> simp [combineTally, h5] <;> omega
        · simp only [h1, h2, h4, ite_true, ite_false, if_true, if_false]

/-- How one applied game changes the non-streak fields of a record:
exactly one counter bumps and the matching history entry is appended. -/
theorem recordWithGame_fields (s : Int) (gt : String) (wk : Int)
    (w : String) (r : H2HRecord) :
    (recordWithGame s gt wk w r).manager1_name = r.manager1_name ∧
    (recordWithGame s gt wk w r).manager2_name = r.manager2_name ∧
    ((recordWithGame s gt wk w r).reg_wins_1,
     (recordWithGame s gt wk w r).reg_wins_2,
     (recordWithGame s gt wk w r).playoff_wins_1,
     (recordWithGame s gt wk w r).playoff_wins_2,
     (recordWithGame s gt wk w r).regular_history,
     (recordWithGame s gt wk w r).playoff_history) =
      (if playoffTypes.contains gt then
        if w = r.manager1_name then
          (r.reg_wins_1, r.reg_wins_2, r.playoff_wins_1 + 1, r.playoff_wins_2,
           r.regular_history, r.playoff_history ++ [⟨w, gt, s, wk⟩])
        else
          (r.reg_wins_1, r.reg_wins_2, r.playoff_wins_1, r.playoff_wins_2 + 1,
           r.regular_history, r.playoff_history ++ [⟨w, gt, s, wk⟩])
      else
        if w = r.manager1_name then
          (r.reg_wins_1 + 1, r.reg_wins_2, r.playoff_wins_1, r.playoff_wins_2,
           r.regular_history ++ [⟨w, gt, s, wk⟩], r.playoff_history)
        else
          (r.reg_wins_1, r.reg_wins_2 + 1, r.playoff_wins_1, r.playoff_wins_2,
           r.regular_history ++ [⟨w, gt, s, wk⟩], r.playoff_history)) := by
  unfold recordWithGame
  by_cases hpo : playoffTypes.contains gt = true <;>
    by_cases hw : w = r.manager1_name <;>
      simp only [hpo, hw, if_true, if_false, ite_true, ite_false,
        Bool.false_eq_true] <;>
    refine ⟨by split <;> rfl, by split <;> rfl, by split <;> rfl⟩

/-- One incremental update step on a singleton store holding the pair:
the store shape is preserved and the non-streak fields change by exactly
the batch tally of that one game. -/
theorem update_one_step (n1 n2 : String) (season psw npt : Int)
    (g : Game) (m : Matchup) (R : H2HRecord)
    (hne : n1 ≠ n2) (hn1 : n1 ≠ "") (hn2 : n2 ≠ "")
    (hh1 : n1 ≠ "--hidden--") (hh2 : n2 ≠ "--hidden--")
    (hgm : matchupMatches season psw npt g m)
    (hpg : pairMatch n1 n2 g = true)
    (hm1 : R.manager1_name = n1) (hm2 : R.manager2_name = n2) :
    ∃ R' : H2HRecord,
      update_h2h_one season psw npt [(sortedKey n1 n2, R)] m =
        [(sortedKey n1 n2, R')] ∧
      R'.manager1_name = n1 ∧ R'.manager2_name = n2 ∧
      R'.reg_wins_1 = R.reg_wins_1 + (tallyGames n1 n2 [g]).reg1 ∧
      R'.reg_wins_2 = R.reg_wins_2 + (tallyGames n1 n2 [g]).reg2 ∧
      R'.playoff_wins_1 = R.playoff_wins_1 + (tallyGames n1 n2 [g]).po1 ∧
      R'.playoff_wins_2 = R.playoff_wins_2 + (tallyGames n1 n2 [g]).po2 ∧
      R'.regular_history = R.regular_history ++ (tallyGames n1 n2 [g]).regular_history ∧
      R'.playoff_history = R.playoff_history ++ (tallyGames n1 n2 [g]).playoff_history := by
  obtain ⟨hseason, hweek, ht1, ht2, hgt, hwin⟩ := hgm
  have hpm := hpg
  simp only [pairMatch, Bool.or_eq_true, Bool.and_eq_true, decide_eq_true_eq] at hpm
  have hman : (m.manager1 = n1 ∧ m.manager2 = n2) ∨
      (m.manager1 = n2 ∧ m.manager2 = n1) := by
    rcases hpm with ⟨e1, e2⟩ | ⟨e1, e2⟩
    · exact Or.inl ⟨ht1 ▸ e1, ht2 ▸ e2⟩
    · exact Or.inr ⟨ht1 ▸ e1, ht2 ▸ e2⟩
  have hkey : sortedKey m.manager1 m.manager2 = sortedKey n1 n2 := by
    rcases hman with ⟨e1, e2⟩ | ⟨e1, e2⟩
    · rw [e1, e2]
    · rw [e1, e2, sortedKey_comm]
  have hhid : (m.manager1 = "--hidden--" || m.manager2 = "--hidden--") = false := by
    rcases hman with ⟨e1, e2⟩ | ⟨e1, e2⟩ <;> simp [e1, e2, hh1, hh2]
  have hfind : storeFind [(sortedKey n1 n2, R)] (sortedKey m.manager1 m.manager2) =
      some R := by
    rw [hkey]
    simp [storeFind]
  by_cases hcons : previewGameType m psw npt = "consolation"
  · have hgc : g.game_type = "consolation" := hgt.trans hcons
    refine ⟨R, ?_, hm1, hm2, ?_, ?_, ?_, ?_, ?_, ?_⟩ <;>
      simp [update_h2h_one, hhid, hfind, hcons, tallyGames, hgc]
  · have hgc : ¬ g.game_type = "consolation" := fun e => hcons (hgt ▸ e)
    cases htied : m.is_tied with
    | true =>
      have hw : g.winner_manager_name = none := by rw [hwin]; simp [htied]
      refine ⟨R, ?_, hm1, hm2, ?_, ?_, ?_, ?_, ?_, ?_⟩ <;>
        simp [update_h2h_one, hhid, hfind, hcons, htied, truthyStr,
          tallyGames, hgc, hw]
    | false =>
      have hw : g.winner_manager_name =
          some (if m.winner_is_team1 then m.manager1 else m.manager2) := by
        rw [hwin]; simp [htied]
      have hwor : (if m.winner_is_team1 then m.manager1 else m.manager2) = n1 ∨
          (if m.winner_is_team1 then m.manager1 else m.manager2) = n2 := by
        cases hb : m.winner_is_team1 <;>
          rcases hman with ⟨e1, e2⟩ | ⟨e1, e2⟩ <;> simp [e1, e2]
      have hupd : update_h2h_one season psw npt [(sortedKey n1 n2, R)] m =
          [(sortedKey n1 n2,
            recordWithGame season (previewGameType m psw npt) m.week
              (if m.winner_is_team1 then m.manager1 else m.manager2) R)] := by
        have hwne : ¬ ((if m.winner_is_team1 then m.manager1 else m.manager2) = "") := by
          rcases hwor with e | e <;> rw [e]
          · exact hn1
          · exact hn2
        have hfind2 : storeFind [(sortedKey n1 n2, R)] (sortedKey n1 n2) =
            some R := by simp [storeFind]
        simp [update_h2h_one, hhid, hfind2, hcons, htied, truthyStr, hwne,
          hkey, storeSet]
      obtain ⟨f1, f2, f3⟩ := recordWithGame_fields season
        (previewGameType m psw npt) m.week
        (if m.winner_is_team1 then m.manager1 else m.manager2) R
      rcases hwor with hw1 | hw2
      · rw [hw1] at hupd f1 f2 f3
        rw [hw1] at hw
        have hwr : n1 = R.manager1_name := hm1.symm
        by_cases hpo : playoffTypes.contains (previewGameType m psw npt) = true
        · have hpog : playoffTypes.contains g.game_type = true := by
            rw [hgt]; exact hpo
          have hpom : g.game_type ∈ playoffTypes := by simpa using hpog
          have ht : tallyGames n1 n2 [g] =
              ⟨0, 0, 1, 0, [⟨n1, g.game_type, g.season, g.week⟩], []⟩ := by
            simp [tallyGames, hgc, hw, hpom]
          rw [if_pos hpo, if_pos hwr] at f3
          simp only [Prod.mk.injEq] at f3
          obtain ⟨e1, e2, e3, e4, e5, e6⟩ := f3
          refine ⟨_, hupd, f1.trans hm1, f2.trans hm2, ?_, ?_, ?_, ?_, ?_, ?_⟩ <;>
            rw [ht] <;> simp [e1, e2, e3, e4, e5, e6, hgt, hseason, hweek]
        · have hpog : ¬ playoffTypes.contains g.game_type = true := by
            rw [hgt]; exact hpo
          have hpom : g.game_type ∉ playoffTypes := by simpa using hpog
          have ht : tallyGames n1 n2 [g] =
              ⟨1, 0, 0, 0, [], [⟨n1, g.game_type, g.season, g.week⟩]⟩ := by
            simp [tallyGames, hgc, hw, hpom]
          rw [if_neg hpo, if_pos hwr] at f3
          simp only [Prod.mk.injEq] at f3
          obtain ⟨e1, e2, e3, e4, e5, e6⟩ := f3
          refine ⟨_, hupd, f1.trans hm1, f2.trans hm2, ?_, ?_, ?_, ?_, ?_, ?_⟩ <;>
            rw [ht] <;> simp [e1, e2, e3, e4, e5, e6, hgt, hseason, hweek]
      · rw [hw2] at hupd f1 f2 f3
        rw [hw2] at hw
        have hn21 : ¬ (n2 = n1) := fun e => hne e.symm
        have hwr : ¬ (n2 = R.manager1_name) := by
          rw [hm1]; exact hn21
        by_cases hpo : playoffTypes.contains (previewGameType m psw npt) = true
        · have hpog : playoffTypes.contains g.game_type = true := by
            rw [hgt]; exact hpo
          have hpom : g.game_type ∈ playoffTypes := by simpa using hpog
          have ht : tallyGames n1 n2 [g] =
              ⟨0, 0, 0, 1, [⟨n2, g.game_type, g.season, g.week⟩], []⟩ := by
            simp [tallyGames, hgc, hw, hpom, hn21]
          rw [if_pos hpo, if_neg hwr] at f3
          simp only [Prod.mk.injEq] at f3
          obtain ⟨e1, e2, e3, e4, e5, e6⟩ := f3
          refine ⟨_, hupd, f1.trans hm1, f2.trans hm2, ?_, ?_, ?_, ?_, ?_, ?_⟩ <;>
            rw [ht] <;> simp [e1, e2, e3, e4, e5, e6, hgt, hseason, hweek]
        · have hpog : ¬ playoffTypes.contains g.game_type = true := by
            rw [hgt]; exact hpo
          have hpom : g.game_type ∉ playoffTypes := by simpa using hpog
          have ht : tallyGames n1 n2 [g] =
              ⟨0, 1, 0, 0, [], [⟨n2, g.game_type, g.season, g.week⟩]⟩ := by
            simp [tallyGames, hgc, hw, hpom, hn21]
          rw [if_neg hpo, if_neg hwr] at f3
          simp only [Prod.mk.injEq] at f3
          obtain ⟨e1, e2, e3, e4, e5, e6⟩ := f3
          refine ⟨_, hupd, f1.trans hm1, f2.trans hm2, ?_, ?_, ?_, ?_, ?_, ?_⟩ <;>
            rw [ht] <;> simp [e1, e2, e3, e4, e5, e6, hgt, hseason, hweek]

/-- Folding a week's corresponding matchups over the singleton store
accumulates exactly the batch tally of the suffix games. -/
theorem update_fold_tallies (n1 n2 : String) (season psw npt : Int)
    (hne : n1 ≠ n2) (hn1 : n1 ≠ "") (hn2 : n2 ≠ "")
    (hh1 : n1 ≠ "--hidden--") (hh2 : n2 ≠ "--hidden--") :
    ∀ (S : List Game) (M : List Matchup),
      List.Forall₂ (matchupMatches season psw npt) S M →
      (∀ g ∈ S, pairMatch n1 n2 g = true) →
      ∀ R : H2HRecord, R.manager1_name = n1 → R.manager2_name = n2 →
      ∃ R' : H2HRecord,
        M.foldl (update_h2h_one season psw npt) [(sortedKey n1 n2, R)] =
          [(sortedKey n1 n2, R')] ∧
        R'.manager1_name = n1 ∧ R'.manager2_name = n2 ∧
        R'.reg_wins_1 = R.reg_wins_1 + (tallyGames n1 n2 S).reg1 ∧
        R'.reg_wins_2 = R.reg_wins_2 + (tallyGames n1 n2 S).reg2 ∧
        R'.playoff_wins_1 = R.playoff_wins_1 + (tallyGames n1 n2 S).po1 ∧
        R'.playoff_wins_2 = R.playoff_wins_2 + (tallyGames n1 n2 S).po2 ∧
        R'.regular_history =
          R.regular_history ++ (tallyGames n1 n2 S).regular_history ∧
        R'.playoff_history =
          R.playoff_history ++ (tallyGames n1 n2 S).playoff_history := by
  intro S M hSM
  induction hSM with
  | nil =>
    intro _ R hm1 hm2
    exact ⟨R, rfl, hm1, hm2, by simp [tallyGames], by simp [tallyGames],
      by simp [tallyGames], by simp [tallyGames], by simp [tallyGames],
      by simp [tallyGames]⟩
  | @cons g m S' M' hgm hrest ih =>
    intro hpair R hm1 hm2
    obtain ⟨R1, hstep, k1, k2, c1, c2, c3, c4, c5, c6⟩ :=
      update_one_step n1 n2 season psw npt g m R hne hn1 hn2 hh1 hh2 hgm
        (hpair g (List.mem_cons_self g S')) hm1 hm2
    obtain ⟨R', hfold, j1, j2, d1, d2, d3, d4, d5, d6⟩ :=
      ih (fun g' hg' => hpair g' (List.mem_cons_of_mem _ hg')) R1 k1 k2
    have hta := tallyGames_append n1 n2 [g] S'
    refine ⟨R', ?_, j1, j2, ?_, ?_, ?_, ?_, ?_, ?_⟩
    · rw [List.foldl_cons, hstep]; exact hfold
    · rw [show g :: S' = [g] ++ S' from rfl, hta, d1, c1]
      simp [combineTally]; omega
    · rw [show g :: S' = [g] ++ S' from rfl, hta, d2, c2]
      simp [combineTally]; omega
    · rw [show g :: S' = [g] ++ S' from rfl, hta, d3, c3]
      simp [combineTally]; omega
    · rw [show g :: S' = [g] ++ S' from rfl, hta, d4, c4]
      simp [combineTally]; omega
    · rw [show g :: S' = [g] ++ S' from rfl, hta, d5, c5]
      simp [combineTally]
    · rw [show g :: S' = [g] ++ S' from rfl, hta, d6, c6]
      simp [combineTally]

/-- C1 (amended): for a pair's chronological history split into a prefix
and a suffix, the incremental update applied to the prefix aggregate
agrees with the full batch rebuild on the manager sides, all four win
counters and both history lists; the streak fields and `last_game` are
excluded (see the counterexample). -/
theorem c1_incremental_tallies_match_batch (n1 n2 : String) (season psw npt : Int)
    (P S : List Game) (M : List Matchup) (R0 : H2HRecord)
    (hne : n1 ≠ n2) (hn1 : n1 ≠ "") (hn2 : n2 ≠ "")
    (hh1 : n1 ≠ "--hidden--") (hh2 : n2 ≠ "--hidden--")
    (hpair : ∀ g ∈ P ++ S, pairMatch n1 n2 g = true)
    (hsorted : List.Chain' (fun a b => chronLT a b = true) (P ++ S))
    (hMS : List.Forall₂ (matchupMatches season psw npt) S M)
    (hSne : S ≠ [])
    (hcalc : calculate_h2h_for_pair n1 n2 P = some R0) :
    ((update_h2h_records M [(sortedKey n1 n2, R0)] season psw npt).bind
        (fun st => storeFind st (sortedKey n1 n2))).map tallyPart =
      (calculate_h2h_for_pair n1 n2 (P ++ S)).map tallyPart := by
  have hchain := List.chain'_append.mp hsorted
  have hPfil : P.filter (pairMatch n1 n2) = P :=
    List.filter_eq_self.mpr (fun g hg => hpair g (List.mem_append_left _ hg))
  have hPsort : sortStable chronLT P = P :=
    sortStable_eq_self chronLT chronLT_asymm P hchain.1
  have hFfil : (P ++ S).filter (pairMatch n1 n2) = P ++ S :=
    List.filter_eq_self.mpr hpair
  have hFsort : sortStable chronLT (P ++ S) = P ++ S :=
    sortStable_eq_self chronLT chronLT_asymm (P ++ S) hsorted
  simp only [calculate_h2h_for_pair, hPfil, hPsort] at hcalc
  cases hlp : P.getLast? with
  | none => rw [hlp] at hcalc; exact Option.noConfusion hcalc
  | some lastP =>
    rw [hlp] at hcalc
    have hR0 := (Option.some.inj hcalc).symm
    have hMne : M ≠ [] := by
      cases hMS with
      | nil => exact absurd rfl hSne
      | cons _ _ => simp
    obtain ⟨R', hfold, j1, j2, d1, d2, d3, d4, d5, d6⟩ :=
      update_fold_tallies n1 n2 season psw npt hne hn1 hn2 hh1 hh2 S M hMS
        (fun g hg => hpair g (List.mem_append_right _ hg)) R0
        (by rw [hR0]) (by rw [hR0])
    have hupdate : update_h2h_records M [(sortedKey n1 n2, R0)] season psw npt =
        some [(sortedKey n1 n2, R')] := by
      unfold update_h2h_records
      cases M with
      | nil => exact absurd rfl hMne
      | cons m M' => rw [← hfold]
    rw [hupdate]
    have hfind : storeFind [(sortedKey n1 n2, R')] (sortedKey n1 n2) = some R' := by
      simp [storeFind]
    simp only [Option.some_bind, hfind, Option.map_some]
    simp only [calculate_h2h_for_pair, hFfil, hFsort]
    cases hlf : (P ++ S).getLast? with
    | none =>
      have h0 : S = [] ∧ P = [] := by simpa using hlf
      exact absurd h0.1 hSne
    | some lastF =>
      have hta := tallyGames_append n1 n2 P S
      simp only [Option.map, tallyPart]
      refine congrArg some ?_
      simp only [Prod.mk.injEq]
      refine ⟨j1, j2, ?_, ?_, ?_, ?_, ?_, ?_⟩
      · rw [d1, hR0, hta]; simp [combineTally]
      · rw [d2, hR0, hta]; simp [combineTally]
      · rw [d3, hR0, hta]; simp [combineTally]
      · rw [d4, hR0, hta]; simp [combineTally]
      · rw [d5, hR0, hta]; simp [combineTally]
      · rw [d6, hR0, hta]; simp [combineTally]

/-- Witness for C1: the concrete two-game split evaluated through the
theorem. -/
theorem c1_incremental_tallies_match_batch_witness :
    ((update_h2h_records [c1SuffixMatchup]
        [(sortedKey "A" "B", c1PrefixRecord)] 2024 15 6).bind
        (fun st => storeFind st (sortedKey "A" "B"))).map tallyPart =
      (calculate_h2h_for_pair "A" "B" [c1PrefixGame, c1SuffixGame]).map tallyPart :=
  c1_incremental_tallies_match_batch "A" "B" 2024 15 6 [c1PrefixGame] [c1SuffixGame] [c1SuffixMatchup]
    c1PrefixRecord (by decide) (by decide) (by decide) (by decide) (by decide)
    (by decide)
    (List.chain'_cons.mpr ⟨by decide, List.chain'_singleton _⟩)
    (List.Forall₂.cons ⟨rfl, rfl, rfl, rfl, rfl, rfl⟩ List.Forall₂.nil)
    (by simp) rfl
